import Mathlib

/-!
# Vote worker (`worker/worker.go`)

A shallow embedding of the consume loop of `main` in `worker/worker.go`:
the `Message` struct, the decoding of a delivery body with `json.Unmarshal`,
the three SQL statements sent with `db.Exec`, and the broker responses
`msg.Ack` / `msg.Nack`.

Modelling decisions.

* A delivery body is a `String` (a body that is valid UTF-8).  The scanner
  below follows `encoding/json`: `checkValid` runs a step function over the
  input, one character at a time, with a stack of parse states; the only
  addition is that the stack frames collect the values read, so that the
  same pass yields the JSON value that `Unmarshal` then stores into the
  struct.
* The store is two tables, each a list of rows.  A statement sent with
  `db.Exec` either fails (`err != nil`, the table is untouched: a single
  statement is atomic) or is applied.  Whether a statement fails is decided
  by the environment (connectivity, a constraint or a range of the schema);
  it is an input of the model, given per delivery for each of the three
  statements.  The tables are not required to have unique keys: what is
  proved holds for every list of rows, those with unique keys among them.
* What the process does is recorded as a trace of events, in program order:
  log lines, `db.Exec` calls with their outcome, the sleep, and the broker
  responses.
-/

set_option autoImplicit false

namespace Worker

/-! ## `encoding/json`: values and scanner -/

/-- A JSON value. Numbers keep their literal text. -/
inductive JValue where
  | null
  | bool (b : Bool)
  | number (lit : List Char)
  | str (s : String)
  | array (elems : List JValue)
  | object (members : List (String × JValue))

/-- One piece of a string literal: a character, or a `\uXXXX` escape. -/
inductive StrTok where
  | ch (c : Char)
  | u16 (n : Nat)

/-- The parse states of the scanner (`parseObjectKey`, `parseObjectValue`,
`parseArrayValue`), each with the part of the composite value read so far. -/
inductive Frame where
  | objectKey (members : List (String × JValue)) (key : Option String)
  | objectValue (members : List (String × JValue)) (key : String)
  | arrayValue (elems : List JValue)

/-- The step states of the scanner (`stateBeginValue`, `stateInString`, ...).
The states `stateT`, `stateTr`, ... of the three literals are one state
`literal`, holding the characters still expected. -/
inductive Step where
  | beginValueOrEmpty
  | beginValue
  | beginStringOrEmpty
  | beginString
  | endValue
  | endTop
  | inString (acc : List StrTok)
  | inStringEsc (acc : List StrTok)
  | inStringEscU (acc : List StrTok) (hex : List Nat)
  | neg (lit : List Char)
  | num1 (lit : List Char)
  | num0 (lit : List Char)
  | dot (lit : List Char)
  | dot0 (lit : List Char)
  | expE (lit : List Char)
  | expSign (lit : List Char)
  | exp0 (lit : List Char)
  | literal (rest : List Char) (v : JValue)
  | error

/-- The scanner: its step state, its stack of parse states (innermost
first) and the top-level value once it is complete. -/
structure Scanner where
  step : Step
  parseState : List Frame
  result : Option JValue

/-- The nesting limit of the scanner. -/
def maxNestingDepth : Nat := 10000

/-- Go's `isSpace`. -/
def isSpace (c : Char) : Bool :=
  c == ' ' || c == '\t' || c == '\r' || c == '\n'

/-- A decimal digit. -/
def isDigit (c : Char) : Bool := '0' ≤ c && c ≤ '9'

/-- The value of a hexadecimal digit. -/
def hexVal (c : Char) : Option Nat :=
  if '0' ≤ c && c ≤ '9' then some (c.toNat - '0'.toNat)
  else if 'a' ≤ c && c ≤ 'f' then some (c.toNat - 'a'.toNat + 10)
  else if 'A' ≤ c && c ≤ 'F' then some (c.toNat - 'A'.toNat + 10)
  else none

/-- The character of a one-letter escape, as the scanner accepts them. -/
def escChar (c : Char) : Option Char :=
  if c == 'b' then some (Char.ofNat 8)
  else if c == 'f' then some (Char.ofNat 12)
  else if c == 'n' then some '\n'
  else if c == 'r' then some '\r'
  else if c == 't' then some '\t'
  else if c == '\\' || c == '/' || c == '"' then some c
  else none

/-- A UTF-16 high (leading) surrogate code unit. -/
def isHighSurrogate (n : Nat) : Bool := 0xD800 ≤ n && n < 0xDC00

/-- A UTF-16 low (trailing) surrogate code unit. -/
def isLowSurrogate (n : Nat) : Bool := 0xDC00 ≤ n && n < 0xE000

/-- The replacement character U+FFFD. -/
def replacementChar : Char := Char.ofNat 0xFFFD

/-- The character of a surrogate pair (`utf16.DecodeRune`). -/
def decodeRune (hi lo : Nat) : Char :=
  Char.ofNat (((hi - 0xD800) * 1024 + (lo - 0xDC00)) + 0x10000)

/-- The characters of a string literal (`unquote`), read left to right; the
first argument is a high surrogate escape just read and not yet paired. A
high surrogate followed at once by a low one is one character; any other
surrogate escape is U+FFFD. -/
def unquoteToks : Option Nat → List StrTok → List Char
  | none, [] => []
  | some _, [] => [replacementChar]
  | none, .ch c :: rest => c :: unquoteToks none rest
  | some _, .ch c :: rest => replacementChar :: c :: unquoteToks none rest
  | none, .u16 n :: rest =>
    if isHighSurrogate n then unquoteToks (some n) rest
    else if isLowSurrogate n then replacementChar :: unquoteToks none rest
    else Char.ofNat n :: unquoteToks none rest
  | some hi, .u16 n :: rest =>
    if isLowSurrogate n then decodeRune hi n :: unquoteToks none rest
    else if isHighSurrogate n then replacementChar :: unquoteToks (some n) rest
    else replacementChar :: Char.ofNat n :: unquoteToks none rest

/-- The scanner in its error state. -/
def Scanner.fail (s : Scanner) : Scanner := { s with step := .error }

/-- A value is complete: hand it to the innermost parse state. -/
def pushValue (s : Scanner) (v : JValue) : Scanner :=
  match s.parseState with
  | [] => { s with step := .endValue, result := some v }
  | .arrayValue es :: fs =>
    { s with step := .endValue, parseState := .arrayValue (es ++ [v]) :: fs }
  | .objectKey ms _ :: fs =>
    match v with
    | .str k => { s with step := .endValue, parseState := .objectKey ms (some k) :: fs }
    | _ => s.fail
  | .objectValue ms k :: fs =>
    { s with step := .endValue, parseState := .objectValue (ms ++ [(k, v)]) k :: fs }

/-- Go's `popParseState`, delivering the composite value just closed. -/
def popParseState (s : Scanner) (fs : List Frame) (v : JValue) : Scanner :=
  let s1 := pushValue { s with parseState := fs } v
  match fs with
  | [] => { s1 with step := .endTop }
  | _ => s1

/-- Go's `pushParseState`. -/
def pushParseState (s : Scanner) (f : Frame) (next : Step) : Scanner :=
  if s.parseState.length + 1 ≤ maxNestingDepth then
    { s with step := next, parseState := f :: s.parseState }
  else s.fail

/-- Go's `stateEndTop`. -/
def stateEndTop (s : Scanner) (c : Char) : Scanner :=
  if isSpace c then { s with step := .endTop } else s.fail

/-- Go's `stateEndValue`. -/
def stateEndValue (s : Scanner) (c : Char) : Scanner :=
  match s.parseState with
  | [] => stateEndTop s c
  | f :: fs =>
    if isSpace c then { s with step := .endValue }
    else
      match f with
      | .objectKey ms (some k) =>
        if c == ':' then { s with step := .beginValue, parseState := .objectValue ms k :: fs }
        else s.fail
      | .objectKey _ none => s.fail
      | .objectValue ms _ =>
        if c == ',' then { s with step := .beginString, parseState := .objectKey ms none :: fs }
        else if c == '}' then popParseState s fs (.object ms)
        else s.fail
      | .arrayValue es =>
        if c == ',' then { s with step := .beginValue }
        else if c == ']' then popParseState s fs (.array es)
        else s.fail

/-- Go's `stateBeginValue`. -/
def stateBeginValue (s : Scanner) (c : Char) : Scanner :=
  if isSpace c then s
  else if c == '{' then pushParseState s (.objectKey [] none) .beginStringOrEmpty
  else if c == '[' then pushParseState s (.arrayValue []) .beginValueOrEmpty
  else if c == '"' then { s with step := .inString [] }
  else if c == '-' then { s with step := .neg [c] }
  else if c == '0' then { s with step := .num0 [c] }
  else if c == 't' then { s with step := .literal ['r', 'u', 'e'] (.bool true) }
  else if c == 'f' then { s with step := .literal ['a', 'l', 's', 'e'] (.bool false) }
  else if c == 'n' then { s with step := .literal ['u', 'l', 'l'] .null }
  else if '1' ≤ c && c ≤ '9' then { s with step := .num1 [c] }
  else s.fail

/-- Go's `stateBeginValueOrEmpty`. -/
def stateBeginValueOrEmpty (s : Scanner) (c : Char) : Scanner :=
  if isSpace c then s
  else if c == ']' then stateEndValue s c
  else stateBeginValue s c

/-- Go's `stateBeginString`. -/
def stateBeginString (s : Scanner) (c : Char) : Scanner :=
  if isSpace c then s
  else if c == '"' then { s with step := .inString [] }
  else s.fail

/-- Go's `stateBeginStringOrEmpty`. -/
def stateBeginStringOrEmpty (s : Scanner) (c : Char) : Scanner :=
  if isSpace c then s
  else if c == '}' then
    match s.parseState with
    | .objectKey ms _ :: fs => stateEndValue { s with parseState := .objectValue ms "" :: fs } c
    | _ => s.fail
  else stateBeginString s c

/-- Go's `stateInString`. -/
def stateInString (s : Scanner) (acc : List StrTok) (c : Char) : Scanner :=
  if c == '"' then pushValue s (.str (String.mk (unquoteToks none acc)))
  else if c == '\\' then { s with step := .inStringEsc acc }
  else if c.toNat < 0x20 then s.fail
  else { s with step := .inString (acc ++ [.ch c]) }

/-- Go's `stateInStringEsc`. -/
def stateInStringEsc (s : Scanner) (acc : List StrTok) (c : Char) : Scanner :=
  if c == 'u' then { s with step := .inStringEscU acc [] }
  else
    match escChar c with
    | some e => { s with step := .inString (acc ++ [.ch e]) }
    | none => s.fail

/-- Go's `stateInStringEscU`, `stateInStringEscU1`, `...U12`, `...U123`. -/
def stateInStringEscU (s : Scanner) (acc : List StrTok) (hex : List Nat) (c : Char) : Scanner :=
  match hexVal c with
  | none => s.fail
  | some d =>
    match hex with
    | [a, b, e] => { s with step := .inString (acc ++ [.u16 (((a * 16 + b) * 16 + e) * 16 + d)]) }
    | _ => { s with step := .inStringEscU acc (hex ++ [d]) }

/-- The end of a number: the value is complete and `c` is scanned after it. -/
def endNumber (s : Scanner) (lit : List Char) (c : Char) : Scanner :=
  match pushValue s (.number lit) with
  | s1 =>
    match s1.step with
    | .error => s1
    | _ => stateEndValue s1 c

/-- Go's `stateNeg`. -/
def stateNeg (s : Scanner) (lit : List Char) (c : Char) : Scanner :=
  if c == '0' then { s with step := .num0 (lit ++ [c]) }
  else if '1' ≤ c && c ≤ '9' then { s with step := .num1 (lit ++ [c]) }
  else s.fail

/-- Go's `state0`. -/
def state0 (s : Scanner) (lit : List Char) (c : Char) : Scanner :=
  if c == '.' then { s with step := .dot (lit ++ [c]) }
  else if c == 'e' || c == 'E' then { s with step := .expE (lit ++ [c]) }
  else endNumber s lit c

/-- Go's `state1`. -/
def state1 (s : Scanner) (lit : List Char) (c : Char) : Scanner :=
  if isDigit c then { s with step := .num1 (lit ++ [c]) }
  else state0 s lit c

/-- Go's `stateDot`. -/
def stateDot (s : Scanner) (lit : List Char) (c : Char) : Scanner :=
  if isDigit c then { s with step := .dot0 (lit ++ [c]) } else s.fail

/-- Go's `stateDot0`. -/
def stateDot0 (s : Scanner) (lit : List Char) (c : Char) : Scanner :=
  if isDigit c then { s with step := .dot0 (lit ++ [c]) }
  else if c == 'e' || c == 'E' then { s with step := .expE (lit ++ [c]) }
  else endNumber s lit c

/-- Go's `stateESign`. -/
def stateESign (s : Scanner) (lit : List Char) (c : Char) : Scanner :=
  if isDigit c then { s with step := .exp0 (lit ++ [c]) } else s.fail

/-- Go's `stateE`. -/
def stateE (s : Scanner) (lit : List Char) (c : Char) : Scanner :=
  if c == '+' || c == '-' then { s with step := .expSign (lit ++ [c]) }
  else stateESign s lit c

/-- Go's `stateE0`. -/
def stateE0 (s : Scanner) (lit : List Char) (c : Char) : Scanner :=
  if isDigit c then { s with step := .exp0 (lit ++ [c]) }
  else endNumber s lit c

/-- Go's `stateT` ... `stateNul`: the next character of `true`, `false`
or `null`. -/
def stateLiteral (s : Scanner) (rest : List Char) (v : JValue) (c : Char) : Scanner :=
  match rest with
  | [] => s.fail
  | [x] => if c == x then pushValue s v else s.fail
  | x :: xs => if c == x then { s with step := .literal xs v } else s.fail

/-- One step of the scanner (`s.step(s, c)`). -/
def scanStep (s : Scanner) (c : Char) : Scanner :=
  match s.step with
  | .beginValueOrEmpty => stateBeginValueOrEmpty s c
  | .beginValue => stateBeginValue s c
  | .beginStringOrEmpty => stateBeginStringOrEmpty s c
  | .beginString => stateBeginString s c
  | .endValue => stateEndValue s c
  | .endTop => stateEndTop s c
  | .inString acc => stateInString s acc c
  | .inStringEsc acc => stateInStringEsc s acc c
  | .inStringEscU acc hex => stateInStringEscU s acc hex c
  | .neg lit => stateNeg s lit c
  | .num1 lit => state1 s lit c
  | .num0 lit => state0 s lit c
  | .dot lit => stateDot s lit c
  | .dot0 lit => stateDot0 s lit c
  | .expE lit => stateE s lit c
  | .expSign lit => stateESign s lit c
  | .exp0 lit => stateE0 s lit c
  | .literal rest v => stateLiteral s rest v c
  | .error => s

/-- Go's `scanner.reset`. -/
def Scanner.reset : Scanner := { step := .beginValue, parseState := [], result := none }

/-- Go's `scanner.eof`: the input has ended. The value read, if the input
was one complete JSON value. -/
def Scanner.eof (s : Scanner) : Option JValue :=
  match s.step with
  | .error => none
  | .endTop => s.result
  | _ =>
    match scanStep s ' ' with
    | s1 =>
      match s1.step with
      | .endTop => s1.result
      | _ => none

/-- Go's `checkValid`: the JSON value that `data` is, `none` on a syntax
error. -/
def checkValid (data : List Char) : Option JValue :=
  (data.foldl scanStep Scanner.reset).eof

/-! ## The message and `json.Unmarshal` into it -/

/-- The struct `Message` of `worker.go`, with its two tagged string fields. -/
structure Message where
  JobID : String
  Choice : String
  deriving DecidableEq

/-- The `Message` before decoding (`var m Message`): both fields empty. -/
def Message.zero : Message := { JobID := "", Choice := "" }

/-- The two kinds of error `json.Unmarshal` returns for this target: the
input is not JSON, or a JSON value does not fit the Go type it is stored
into. -/
inductive JSONError where
  | SyntaxError
  | UnmarshalTypeError
  deriving DecidableEq

/-- The fields of `Message`. -/
inductive Field where
  | JobID
  | Choice
  deriving DecidableEq

/-- The case folding `encoding/json` matches an object key with when no
field has exactly that name. The names `job_id` and `choice` hold no `k` and
no `s`, the only ASCII letters that fold with a character outside ASCII, so
for them it is the folding of the ASCII letters. -/
def foldName (s : String) : String := String.mk (s.toList.map Char.toLower)

/-- The field an object key is stored into: the field whose `json` tag is
the key, else the one whose tag is the key up to case, else none (the member
is skipped). -/
def fieldByName (key : String) : Option Field :=
  if key = "job_id" then some .JobID
  else if key = "choice" then some .Choice
  else if foldName key = foldName "job_id" then some .JobID
  else if foldName key = foldName "choice" then some .Choice
  else none

/-- Storing a JSON value into a Go `string` field holding `cur`: a string
is stored, `null` leaves the field as it is, anything else is an
`UnmarshalTypeError` and leaves the field as it is. -/
def storeString (v : JValue) (cur : String) : String × Option JSONError :=
  match v with
  | .str s => (s, none)
  | .null => (cur, none)
  | _ => (cur, some .UnmarshalTypeError)

/-- Go's `saveError`: the first error is kept. -/
def saveError (saved : Option JSONError) (e : Option JSONError) : Option JSONError :=
  match saved with
  | some x => some x
  | none => e

/-- Decoding the members of an object into a `Message`, in order; decoding
goes on after a type error, which is reported at the end. -/
def decodeObject : List (String × JValue) → Message → Option JSONError →
    Message × Option JSONError
  | [], m, saved => (m, saved)
  | (key, v) :: rest, m, saved =>
    match fieldByName key with
    | some .JobID =>
      decodeObject rest { m with JobID := (storeString v m.JobID).1 }
        (saveError saved (storeString v m.JobID).2)
    | some .Choice =>
      decodeObject rest { m with Choice := (storeString v m.Choice).1 }
        (saveError saved (storeString v m.Choice).2)
    | none => decodeObject rest m saved

/-- Decoding a JSON value into a `Message`: an object is decoded member by
member, `null` leaves the struct as it is, any other value is an
`UnmarshalTypeError`. -/
def decodeValue (v : JValue) (m : Message) : Message × Option JSONError :=
  match v with
  | .object ms => decodeObject ms m none
  | .null => (m, none)
  | _ => (m, some .UnmarshalTypeError)

/-- The call `json.Unmarshal(data, &m)`: the struct afterwards and the error
returned. -/
def jsonUnmarshal (data : String) (m : Message) : Message × Option JSONError :=
  match checkValid data.toList with
  | none => (m, some .SyntaxError)
  | some v => decodeValue v m

/-! ## The store -/

/-- A row of `jobs(id, status)`. -/
structure JobRow where
  id : String
  status : String
  deriving DecidableEq

/-- A row of `votes(choice, count)`. -/
structure VoteRow where
  choice : String
  count : Int
  deriving DecidableEq

/-- The two tables the worker writes. -/
structure Store where
  jobs : List JobRow
  votes : List VoteRow
  deriving DecidableEq

/-- The statements of `worker.go`:
`UPDATE jobs SET status = <status> WHERE id = $1` and
`INSERT INTO votes (choice, count) VALUES ($1, 1)
 ON CONFLICT (choice) DO UPDATE SET count = votes.count + 1`. -/
inductive Stmt where
  | updateJobStatus (status : String) (id : String)
  | upsertVote (choice : String)
  deriving DecidableEq

/-- The effect of `UPDATE jobs SET status = <status> WHERE id = <id>`. -/
def updateJobs (status id : String) (jobs : List JobRow) : List JobRow :=
  jobs.map fun r => if r.id = id then { r with status := status } else r

/-- The effect of the `INSERT ... ON CONFLICT (choice) DO UPDATE` on
`votes`: a row of that choice is incremented, and with no such row one is
inserted with count 1. -/
def upsertVotes (choice : String) (votes : List VoteRow) : List VoteRow :=
  if votes.any (fun r => decide (r.choice = choice)) then
    votes.map fun r => if r.choice = choice then { r with count := r.count + 1 } else r
  else votes ++ [{ choice := choice, count := 1 }]

/-- The effect of a statement on the store. -/
def Stmt.apply (q : Stmt) (db : Store) : Store :=
  match q with
  | .updateJobStatus status id => { db with jobs := updateJobs status id db.jobs }
  | .upsertVote choice => { db with votes := upsertVotes choice db.votes }

/-- The error of a failed `db.Exec`. -/
inductive ExecError where
  | failed
  deriving DecidableEq

/-- The call `db.Exec(q, ...)`: when the store fails the statement the
tables are as before and an error is returned; else the statement is
applied and the error is nil. -/
def dbExec (fails : Bool) (q : Stmt) (db : Store) : Store × Option ExecError :=
  if fails then (db, some .failed) else (q.apply db, none)

/-! ## The consume loop -/

/-- The lines the loop logs. -/
inductive LogLine where
  | parseError
  | processing (jobID choice : String)
  | updateJobError
  | updateVotesError
  | completeJobError
  | completed (jobID : String)
  deriving DecidableEq

/-- What the loop does, as seen from outside. -/
inductive Event where
  | log (line : LogLine)
  | exec (q : Stmt) (ok : Bool)
  | sleep (ms : Nat)
  | ack (tag : Nat) (multiple : Bool)
  | nack (tag : Nat) (multiple requeue : Bool)
  deriving DecidableEq

/-- A delivery received from the queue. -/
structure Delivery where
  Body : String
  DeliveryTag : Nat
  deriving DecidableEq

/-- Which of the three statements of one delivery the store fails, should
the statement be sent. -/
structure StoreFaults where
  processing : Bool
  tally : Bool
  completed : Bool
  deriving DecidableEq

/-- A store that fails no statement. -/
def StoreFaults.healthy : StoreFaults :=
  { processing := false, tally := false, completed := false }

/-- The body of the loop `for msg := range msgs` of `main`, for one
delivery: the store afterwards and the events, in order. -/
def handle (msg : Delivery) (f : StoreFaults) (db : Store) : Store × List Event :=
  match jsonUnmarshal msg.Body Message.zero with
  | (_, some _) =>
    (db, [.log .parseError, .nack msg.DeliveryTag false false])
  | (m, none) =>
    match dbExec f.processing (.updateJobStatus "processing" m.JobID) db with
    | (db1, some _) =>
      (db1, [.log (.processing m.JobID m.Choice),
             .exec (.updateJobStatus "processing" m.JobID) false,
             .log .updateJobError, .nack msg.DeliveryTag false true])
    | (db1, none) =>
      match dbExec f.tally (.upsertVote m.Choice) db1 with
      | (db2, some _) =>
        (db2, [.log (.processing m.JobID m.Choice),
               .exec (.updateJobStatus "processing" m.JobID) true,
               .sleep 500,
               .exec (.upsertVote m.Choice) false,
               .log .updateVotesError, .nack msg.DeliveryTag false true])
      | (db2, none) =>
        match dbExec f.completed (.updateJobStatus "completed" m.JobID) db2 with
        | (db3, some _) =>
          (db3, [.log (.processing m.JobID m.Choice),
                 .exec (.updateJobStatus "processing" m.JobID) true,
                 .sleep 500,
                 .exec (.upsertVote m.Choice) true,
                 .exec (.updateJobStatus "completed" m.JobID) false,
                 .log .completeJobError, .nack msg.DeliveryTag false true])
        | (db3, none) =>
          (db3, [.log (.processing m.JobID m.Choice),
                 .exec (.updateJobStatus "processing" m.JobID) true,
                 .sleep 500,
                 .exec (.upsertVote m.Choice) true,
                 .exec (.updateJobStatus "completed" m.JobID) true,
                 .ack msg.DeliveryTag false,
                 .log (.completed m.JobID)])

/-- The loop `for msg := range msgs` over the deliveries received, each
with the faults of the store while it is handled. -/
def consume : List (Delivery × StoreFaults) → Store → Store × List Event
  | [], db => (db, [])
  | (msg, f) :: rest, db =>
    ((consume rest (handle msg f db).1).1,
     (handle msg f db).2 ++ (consume rest (handle msg f db).1).2)

/-! ## Reading the tables and the trace -/

/-- The count of a choice in `votes`, `none` when it has no row. -/
def countOf (votes : List VoteRow) (choice : String) : Option Int :=
  (votes.find? fun r => decide (r.choice = choice)).map (·.count)

/-- The status of a job in `jobs`, `none` when it has no row. -/
def statusOf (jobs : List JobRow) (id : String) : Option String :=
  (jobs.find? fun r => decide (r.id = id)).map (·.status)

/-- The event is a broker response: an ack or a nack. -/
def Event.isResponse : Event → Bool
  | .ack _ _ => true
  | .nack _ _ _ => true
  | _ => false

/-- The event is a statement sent to the store. -/
def Event.isExec : Event → Bool
  | .exec _ _ => true
  | _ => false

/-- The delivery tag a broker response is for. -/
def Event.tag? : Event → Option Nat
  | .ack tag _ => some tag
  | .nack tag _ _ => some tag
  | _ => none

/-- The store after the statements of a trace that succeeded, applied in
the order of the trace. -/
def replay : List Event → Store → Store
  | [], db => db
  | .exec q true :: es, db => replay es (q.apply db)
  | _ :: es, db => replay es db

/-- The JSON value is a string or `null`. -/
def JValue.isStringOrNull : JValue → Bool
  | .str _ => true
  | .null => true
  | _ => false

/-- The JSON value does not fit `Message`: it is neither an object nor
`null`, or it is an object with a member that names a field (up to case) and
holds a number, a boolean, an array or an object. -/
def typeMismatch : JValue → Bool
  | .object ms => ms.any fun kv => (fieldByName kv.1).isSome && !kv.2.isStringOrNull
  | .null => false
  | _ => true

/-! ## Lemmas on the tables -/

theorem countOf_nil (c : String) : countOf [] c = none := rfl

theorem countOf_cons (r : VoteRow) (votes : List VoteRow) (c : String) :
    countOf (r :: votes) c = if r.choice = c then some r.count else countOf votes c := by
  unfold countOf
  by_cases h : r.choice = c <;> simp [List.find?_cons, h]

theorem statusOf_cons (r : JobRow) (jobs : List JobRow) (id : String) :
    statusOf (r :: jobs) id = if r.id = id then some r.status else statusOf jobs id := by
  unfold statusOf
  by_cases h : r.id = id <;> simp [List.find?_cons, h]

theorem countOf_eq_none_iff (votes : List VoteRow) (c : String) :
    countOf votes c = none ↔ ∀ r ∈ votes, r.choice ≠ c := by
  induction votes with
  | nil => simp [countOf_nil]
  | cons r rest ih =>
    rw [countOf_cons]
    by_cases h : r.choice = c
    · simp [h]
    · simp [h, ih]

theorem any_choice_iff (votes : List VoteRow) (c : String) :
    (votes.any fun r => decide (r.choice = c)) = true ↔ countOf votes c ≠ none := by
  rw [Ne, countOf_eq_none_iff]
  simp [List.any_eq_true]

theorem countOf_map_incr (votes : List VoteRow) (c c2 : String) :
    countOf (votes.map fun r => if r.choice = c then { r with count := r.count + 1 } else r) c2
      = if c2 = c then (countOf votes c2).map (· + 1) else countOf votes c2 := by
  induction votes with
  | nil => simp [countOf_nil]
  | cons r rest ih =>
    rw [List.map_cons, countOf_cons, countOf_cons, ih]
    by_cases h : r.choice = c
    · by_cases h2 : c2 = c
      · subst h2; simp [h]
      · have h3 : ¬ c = c2 := fun e => h2 e.symm
        subst h
        simp [h2, h3]
    · by_cases h2 : r.choice = c2
      · have : c2 ≠ c := fun e => h (e ▸ h2)
        simp [h, h2, this]
      · simp [h, h2]

theorem countOf_append_singleton (votes : List VoteRow) (r : VoteRow) (c : String) :
    countOf (votes ++ [r]) c
      = match countOf votes c with
        | some n => some n
        | none => if r.choice = c then some r.count else none := by
  induction votes with
  | nil => simp [countOf_cons, countOf_nil]
  | cons x rest ih =>
    rw [List.cons_append, countOf_cons, countOf_cons, ih]
    by_cases h : x.choice = c <;> simp [h]

/-- The count of the choice voted for, after the upsert. -/
theorem countOf_upsertVotes_self (votes : List VoteRow) (c : String) :
    countOf (upsertVotes c votes) c = some ((countOf votes c).getD 0 + 1) := by
  unfold upsertVotes
  by_cases h : (votes.any fun r => decide (r.choice = c)) = true
  · rw [if_pos h, countOf_map_incr]
    have hne := (any_choice_iff votes c).1 h
    cases hc : countOf votes c with
    | none => exact absurd hc hne
    | some n => simp
  · rw [if_neg h, countOf_append_singleton]
    have hnone : countOf votes c = none := by
      by_contra hc
      exact h ((any_choice_iff votes c).2 hc)
    simp [hnone]

/-- The count of any other choice, after the upsert. -/
theorem countOf_upsertVotes_other (votes : List VoteRow) (c c2 : String) (hne : c2 ≠ c) :
    countOf (upsertVotes c votes) c2 = countOf votes c2 := by
  unfold upsertVotes
  by_cases h : (votes.any fun r => decide (r.choice = c)) = true
  · rw [if_pos h, countOf_map_incr, if_neg hne]
  · rw [if_neg h, countOf_append_singleton]
    cases hc : countOf votes c2 with
    | none => simp [Ne.symm hne]
    | some n => simp

/-- The rows of any other choice, after the upsert. -/
theorem filter_upsertVotes_other (votes : List VoteRow) (c c2 : String) (hne : c2 ≠ c) :
    (upsertVotes c votes).filter (fun r => decide (r.choice = c2))
      = votes.filter (fun r => decide (r.choice = c2)) := by
  unfold upsertVotes
  by_cases h : (votes.any fun r => decide (r.choice = c)) = true
  · rw [if_pos h]
    clear h
    induction votes with
    | nil => rfl
    | cons r rest ih =>
      rw [List.map_cons]
      by_cases h1 : r.choice = c
      · have h2 : r.choice ≠ c2 := fun e => hne (e ▸ h1)
        simp [List.filter_cons, h1, h2, Ne.symm hne] at ih ⊢
        exact ih
      · by_cases h2 : r.choice = c2
        · rw [if_neg h1, List.filter_cons, List.filter_cons]
          simp only [h2, decide_True, if_true]
          rw [ih]
        · rw [if_neg h1, List.filter_cons, List.filter_cons]
          simp only [h2, decide_False]
          simpa using ih
  · rw [if_neg h, List.filter_append]
    simp [List.filter_cons, Ne.symm hne]

theorem statusOf_updateJobs_self (st id : String) (jobs : List JobRow) :
    statusOf (updateJobs st id jobs) id = (statusOf jobs id).map fun _ => st := by
  unfold updateJobs
  induction jobs with
  | nil => rfl
  | cons r rest ih =>
    rw [List.map_cons, statusOf_cons, statusOf_cons, ih]
    by_cases h : r.id = id <;> simp [h]

theorem statusOf_updateJobs_other (st id id2 : String) (jobs : List JobRow) (hne : id2 ≠ id) :
    statusOf (updateJobs st id jobs) id2 = statusOf jobs id2 := by
  unfold updateJobs
  induction jobs with
  | nil => rfl
  | cons r rest ih =>
    rw [List.map_cons, statusOf_cons, statusOf_cons, ih]
    by_cases h : r.id = id
    · have : r.id ≠ id2 := fun e => hne (e ▸ h)
      simp [h, this, Ne.symm hne]
    · simp [h]

theorem updateJobs_ids (st id : String) (jobs : List JobRow) :
    (updateJobs st id jobs).map (·.id) = jobs.map (·.id) := by
  unfold updateJobs
  induction jobs with
  | nil => rfl
  | cons r rest ih =>
    simp only [List.map_cons, ih]
    by_cases h : r.id = id <;> simp [h]

theorem updateJobs_updateJobs (st st2 id : String) (jobs : List JobRow) :
    updateJobs st2 id (updateJobs st id jobs) = updateJobs st2 id jobs := by
  unfold updateJobs
  rw [List.map_map]
  apply List.map_congr_left
  intro r _
  by_cases h : r.id = id <;> simp [h]

theorem updateJobs_of_absent (st id : String) (jobs : List JobRow)
    (h : ∀ r ∈ jobs, r.id ≠ id) : updateJobs st id jobs = jobs := by
  unfold updateJobs
  conv_rhs => rw [← List.map_id jobs]
  apply List.map_congr_left
  intro r hr
  simp [h r hr]

/-! ## The loop body, case by case -/

theorem handle_decode_error (msg : Delivery) (f : StoreFaults) (db : Store)
    (h : (jsonUnmarshal msg.Body Message.zero).2 ≠ none) :
    handle msg f db = (db, [.log .parseError, .nack msg.DeliveryTag false false]) := by
  unfold handle
  rcases hj : jsonUnmarshal msg.Body Message.zero with ⟨m, e⟩
  rw [hj] at h
  cases e with
  | none => exact absurd rfl h
  | some e => rfl

theorem handle_processing_fails (msg : Delivery) (f : StoreFaults) (db : Store) (m : Message)
    (hdec : jsonUnmarshal msg.Body Message.zero = (m, none)) (h1 : f.processing = true) :
    handle msg f db =
      (db, [.log (.processing m.JobID m.Choice),
            .exec (.updateJobStatus "processing" m.JobID) false,
            .log .updateJobError, .nack msg.DeliveryTag false true]) := by
  unfold handle
  rw [hdec]
  simp [dbExec, h1]

theorem handle_tally_fails (msg : Delivery) (f : StoreFaults) (db : Store) (m : Message)
    (hdec : jsonUnmarshal msg.Body Message.zero = (m, none)) (h1 : f.processing = false)
    (h2 : f.tally = true) :
    handle msg f db =
      ((Stmt.updateJobStatus "processing" m.JobID).apply db,
       [.log (.processing m.JobID m.Choice),
        .exec (.updateJobStatus "processing" m.JobID) true,
        .sleep 500,
        .exec (.upsertVote m.Choice) false,
        .log .updateVotesError, .nack msg.DeliveryTag false true]) := by
  unfold handle
  rw [hdec]
  simp [dbExec, h1, h2]

theorem handle_completed_fails (msg : Delivery) (f : StoreFaults) (db : Store) (m : Message)
    (hdec : jsonUnmarshal msg.Body Message.zero = (m, none)) (h1 : f.processing = false)
    (h2 : f.tally = false) (h3 : f.completed = true) :
    handle msg f db =
      ((Stmt.upsertVote m.Choice).apply ((Stmt.updateJobStatus "processing" m.JobID).apply db),
       [.log (.processing m.JobID m.Choice),
        .exec (.updateJobStatus "processing" m.JobID) true,
        .sleep 500,
        .exec (.upsertVote m.Choice) true,
        .exec (.updateJobStatus "completed" m.JobID) false,
        .log .completeJobError, .nack msg.DeliveryTag false true]) := by
  unfold handle
  rw [hdec]
  simp [dbExec, h1, h2, h3]

theorem handle_all_succeed (msg : Delivery) (f : StoreFaults) (db : Store) (m : Message)
    (hdec : jsonUnmarshal msg.Body Message.zero = (m, none)) (h1 : f.processing = false)
    (h2 : f.tally = false) (h3 : f.completed = false) :
    handle msg f db =
      ((Stmt.updateJobStatus "completed" m.JobID).apply
        ((Stmt.upsertVote m.Choice).apply ((Stmt.updateJobStatus "processing" m.JobID).apply db)),
       [.log (.processing m.JobID m.Choice),
        .exec (.updateJobStatus "processing" m.JobID) true,
        .sleep 500,
        .exec (.upsertVote m.Choice) true,
        .exec (.updateJobStatus "completed" m.JobID) true,
        .ack msg.DeliveryTag false,
        .log (.completed m.JobID)]) := by
  unfold handle
  rw [hdec]
  simp [dbExec, h1, h2, h3]

/-- Every delivery falls in one of the five cases of the loop body. -/
theorem handle_cases (msg : Delivery) (f : StoreFaults) :
    ((jsonUnmarshal msg.Body Message.zero).2 ≠ none) ∨
    ∃ m, jsonUnmarshal msg.Body Message.zero = (m, none) ∧
      (f.processing = true ∨ (f.processing = false ∧ f.tally = true) ∨
       (f.processing = false ∧ f.tally = false ∧ f.completed = true) ∨
       (f.processing = false ∧ f.tally = false ∧ f.completed = false)) := by
  rcases hj : jsonUnmarshal msg.Body Message.zero with ⟨m, e⟩
  cases e with
  | some e => left; simp
  | none =>
    right
    refine ⟨m, rfl, ?_⟩
    cases f.processing <;> cases f.tally <;> cases f.completed <;> simp

/-- An element that occurs once in a list splits the list in one way. -/
theorem split_unique {α : Type} (a : α) (l1 l2 pre post : List α)
    (h : l1 ++ a :: l2 = pre ++ a :: post) (h1 : a ∉ l1) (h2 : a ∉ l2) :
    pre = l1 ∧ post = l2 := by
  induction l1 generalizing pre with
  | nil =>
    cases pre with
    | nil =>
      simp only [List.nil_append, List.cons.injEq, true_and] at h
      exact ⟨rfl, h.symm⟩
    | cons p pre2 =>
      simp only [List.nil_append, List.cons_append, List.cons.injEq] at h
      exact absurd (h.2 ▸ List.mem_append_right pre2 (List.mem_cons_self a post)) h2
  | cons x l1 ih =>
    cases pre with
    | nil =>
      simp only [List.nil_append, List.cons_append, List.cons.injEq] at h
      exact absurd (h.1 ▸ List.mem_cons_self x l1) h1
    | cons p pre2 =>
      simp only [List.cons_append, List.cons.injEq] at h
      have hx : a ∉ l1 := fun hm => h1 (List.mem_cons_of_mem x hm)
      obtain ⟨e1, e2⟩ := ih pre2 h.2 hx
      exact ⟨by rw [h.1, e1], e2⟩

/-! ## The claims -/

/-- C1. A delivery whose body decodes to `m` and whose three statements all
succeed leaves the job `m.JobID`, when it has a row, at status `completed`
(and every row of that id is `completed`), leaves the count of `m.Choice`
one higher than before (1 when it had no row), and answers the broker with
one response, `Ack(false)`. -/
theorem C1_processed_message (msg : Delivery) (f : StoreFaults) (db : Store) (m : Message)
    (hdec : jsonUnmarshal msg.Body Message.zero = (m, none))
    (h1 : f.processing = false) (h2 : f.tally = false) (h3 : f.completed = false) :
    statusOf (handle msg f db).1.jobs m.JobID
        = (statusOf db.jobs m.JobID).map (fun _ => "completed") ∧
      (∀ r ∈ (handle msg f db).1.jobs, r.id = m.JobID → r.status = "completed") ∧
      countOf (handle msg f db).1.votes m.Choice
        = some ((countOf db.votes m.Choice).getD 0 + 1) ∧
      (countOf db.votes m.Choice = none →
        countOf (handle msg f db).1.votes m.Choice = some 1) ∧
      (handle msg f db).2.filter Event.isResponse = [.ack msg.DeliveryTag false] := by
  rw [handle_all_succeed msg f db m hdec h1 h2 h3]
  have hcount : countOf (upsertVotes m.Choice db.votes) m.Choice
      = some ((countOf db.votes m.Choice).getD 0 + 1) := countOf_upsertVotes_self _ _
  refine ⟨?_, ?_, hcount, ?_, ?_⟩
  · simp only [Stmt.apply]
    rw [updateJobs_updateJobs, statusOf_updateJobs_self]
  · simp only [Stmt.apply]
    intro r hr hid
    unfold updateJobs at hr
    rw [List.mem_map] at hr
    obtain ⟨r0, _, hr0⟩ := hr
    by_cases h : r0.id = m.JobID
    · rw [if_pos h] at hr0
      rw [← hr0]
    · rw [if_neg h] at hr0
      rw [← hr0] at hid
      exact absurd hid h
  · intro hnone
    simp only [Stmt.apply]
    rw [hcount, hnone]
    rfl
  · simp [Event.isResponse]

/-- C1, at the body `{"job_id":"j1","choice":"yes"}` with a row of job `j1`
and no row of `yes`: `j1` ends `completed`, `yes` has count 1, and the
delivery is acked. -/
theorem C1_processed_message_witness :
    jsonUnmarshal "\x7b\"job_id\":\"j1\",\"choice\":\"yes\"\x7d" Message.zero
        = ({ JobID := "j1", Choice := "yes" }, none) ∧
      statusOf (handle ⟨"\x7b\"job_id\":\"j1\",\"choice\":\"yes\"\x7d", 1⟩ StoreFaults.healthy
        ⟨[⟨"j1", "queued"⟩], []⟩).1.jobs "j1" = some "completed" ∧
      countOf (handle ⟨"\x7b\"job_id\":\"j1\",\"choice\":\"yes\"\x7d", 1⟩ StoreFaults.healthy
        ⟨[⟨"j1", "queued"⟩], []⟩).1.votes "yes" = some 1 ∧
      (handle ⟨"\x7b\"job_id\":\"j1\",\"choice\":\"yes\"\x7d", 1⟩ StoreFaults.healthy
        ⟨[⟨"j1", "queued"⟩], []⟩).2.filter Event.isResponse = [.ack 1 false] :=
  have h := C1_processed_message ⟨"\x7b\"job_id\":\"j1\",\"choice\":\"yes\"\x7d", 1⟩
    StoreFaults.healthy ⟨[⟨"j1", "queued"⟩], []⟩ { JobID := "j1", Choice := "yes" }
    (by decide) rfl rfl rfl
  ⟨by decide, h.1, h.2.2.2.1 rfl, h.2.2.2.2⟩

/-- C2. Whenever the trace of a delivery holds an ack, the body decoded, the
statements sent before the ack are the three statements, each successful, in
the order set `processing`, upsert, set `completed`; no statement of the
delivery failed, none is sent after the ack, and the store the delivery
leaves is the store at the time of the ack. -/
theorem C2_ack_only_after_mutations (msg : Delivery) (f : StoreFaults) (db : Store)
    (pre post : List Event) (tag : Nat) (multiple : Bool)
    (h : (handle msg f db).2 = pre ++ Event.ack tag multiple :: post) :
    ∃ m, jsonUnmarshal msg.Body Message.zero = (m, none) ∧
      pre.filter Event.isExec =
        [.exec (.updateJobStatus "processing" m.JobID) true,
         .exec (.upsertVote m.Choice) true,
         .exec (.updateJobStatus "completed" m.JobID) true] ∧
      (∀ q, Event.exec q false ∉ (handle msg f db).2) ∧
      (f.processing = false ∧ f.tally = false ∧ f.completed = false) ∧
      (∀ e ∈ post, e.isExec = false) ∧
      (handle msg f db).1 = replay pre db := by
  have hmem : Event.ack tag multiple ∈ (handle msg f db).2 := by
    rw [h]; exact List.mem_append_right pre (List.mem_cons_self _ _)
  rcases handle_cases msg f with herr | ⟨m, hdec, hf | ⟨hf1, hf2⟩ | ⟨hf1, hf2, hf3⟩ | ⟨hf1, hf2, hf3⟩⟩
  · rw [handle_decode_error msg f db herr] at hmem
    simp at hmem
  · rw [handle_processing_fails msg f db m hdec hf] at hmem
    simp at hmem
  · rw [handle_tally_fails msg f db m hdec hf1 hf2] at hmem
    simp at hmem
  · rw [handle_completed_fails msg f db m hdec hf1 hf2 hf3] at hmem
    simp at hmem
  · rw [handle_all_succeed msg f db m hdec hf1 hf2 hf3] at hmem h ⊢
    simp at hmem
    obtain ⟨rfl, rfl⟩ := hmem
    have hs := split_unique (Event.ack msg.DeliveryTag false)
      [.log (.processing m.JobID m.Choice),
       .exec (.updateJobStatus "processing" m.JobID) true,
       .sleep 500,
       .exec (.upsertVote m.Choice) true,
       .exec (.updateJobStatus "completed" m.JobID) true]
      [.log (.completed m.JobID)] pre post h (by simp) (by simp)
    obtain ⟨rfl, rfl⟩ := hs
    refine ⟨m, hdec, ?_, ?_, ⟨hf1, hf2, hf3⟩, ?_, ?_⟩
    · simp [Event.isExec]
    · intro q hq
      simp at hq
    · intro e he
      simp at he
      subst he
      rfl
    · rfl

/-- C2, at the body `{"job_id":"j1","choice":"yes"}` handled by a healthy
store: the ack comes after the three successful statements. -/
theorem C2_ack_only_after_mutations_witness :
    (handle ⟨"\x7b\"job_id\":\"j1\",\"choice\":\"yes\"\x7d", 7⟩ StoreFaults.healthy
        ⟨[⟨"j1", "queued"⟩], []⟩).2
      = [.log (.processing "j1" "yes"),
         .exec (.updateJobStatus "processing" "j1") true,
         .sleep 500,
         .exec (.upsertVote "yes") true,
         .exec (.updateJobStatus "completed" "j1") true]
        ++ Event.ack 7 false :: [.log (.completed "j1")] ∧
    ∃ m, jsonUnmarshal "\x7b\"job_id\":\"j1\",\"choice\":\"yes\"\x7d" Message.zero = (m, none) ∧
      (∀ q, Event.exec q false ∉
        (handle ⟨"\x7b\"job_id\":\"j1\",\"choice\":\"yes\"\x7d", 7⟩ StoreFaults.healthy
          ⟨[⟨"j1", "queued"⟩], []⟩).2) :=
  have h := C2_ack_only_after_mutations
    ⟨"\x7b\"job_id\":\"j1\",\"choice\":\"yes\"\x7d", 7⟩ StoreFaults.healthy
    ⟨[⟨"j1", "queued"⟩], []⟩
    [.log (.processing "j1" "yes"),
     .exec (.updateJobStatus "processing" "j1") true,
     .sleep 500,
     .exec (.upsertVote "yes") true,
     .exec (.updateJobStatus "completed" "j1") true]
    [.log (.completed "j1")] 7 false (by decide)
  ⟨by decide, h.elim fun m hm => ⟨m, hm.1, hm.2.2.1⟩⟩

/-- C3. For a delivery whose body decoded: whichever statement fails, the
events after it hold one broker response, `Nack(false, true)`, and no
statement; the trace holds no ack; the store is left as the statements
before the failed one made it. Each of the three statements fails when the
store fails it and the statements before it succeeded. -/
theorem C3_failed_statement_requeues (msg : Delivery) (f : StoreFaults) (db : Store)
    (m : Message) (hdec : jsonUnmarshal msg.Body Message.zero = (m, none)) :
    (∀ (pre post : List Event) (q : Stmt),
      (handle msg f db).2 = pre ++ Event.exec q false :: post →
        post.filter Event.isResponse = [.nack msg.DeliveryTag false true] ∧
        (∀ tag multiple, Event.ack tag multiple ∉ (handle msg f db).2) ∧
        (∀ e ∈ post, e.isExec = false) ∧
        (handle msg f db).1 = replay pre db) ∧
    (f.processing = true →
      Event.exec (.updateJobStatus "processing" m.JobID) false ∈ (handle msg f db).2) ∧
    (f.processing = false → f.tally = true →
      Event.exec (.upsertVote m.Choice) false ∈ (handle msg f db).2) ∧
    (f.processing = false → f.tally = false → f.completed = true →
      Event.exec (.updateJobStatus "completed" m.JobID) false ∈ (handle msg f db).2) := by
  refine ⟨?_, ?_, ?_, ?_⟩
  · intro pre post q h
    have hmem : Event.exec q false ∈ (handle msg f db).2 := by
      rw [h]; exact List.mem_append_right pre (List.mem_cons_self _ _)
    rcases handle_cases msg f with herr | ⟨m2, hdec2, hf | ⟨hf1, hf2⟩ | ⟨hf1, hf2, hf3⟩ | ⟨hf1, hf2, hf3⟩⟩
    · rw [hdec] at herr
      exact absurd rfl herr
    · rw [handle_processing_fails msg f db m2 hdec2 hf] at hmem h ⊢
      simp at hmem
      subst hmem
      have hs := split_unique (Event.exec (.updateJobStatus "processing" m2.JobID) false)
        [.log (.processing m2.JobID m2.Choice)]
        [.log .updateJobError, .nack msg.DeliveryTag false true] pre post h (by simp) (by simp)
      obtain ⟨rfl, rfl⟩ := hs
      refine ⟨by simp [Event.isResponse], by simp, ?_, rfl⟩
      intro e he
      simp at he
      rcases he with rfl | rfl <;> rfl
    · rw [handle_tally_fails msg f db m2 hdec2 hf1 hf2] at hmem h ⊢
      simp at hmem
      subst hmem
      have hs := split_unique (Event.exec (.upsertVote m2.Choice) false)
        [.log (.processing m2.JobID m2.Choice),
         .exec (.updateJobStatus "processing" m2.JobID) true,
         .sleep 500]
        [.log .updateVotesError, .nack msg.DeliveryTag false true] pre post h (by simp) (by simp)
      obtain ⟨rfl, rfl⟩ := hs
      refine ⟨by simp [Event.isResponse], by simp, ?_, rfl⟩
      intro e he
      simp at he
      rcases he with rfl | rfl <;> rfl
    · rw [handle_completed_fails msg f db m2 hdec2 hf1 hf2 hf3] at hmem h ⊢
      simp at hmem
      subst hmem
      have hs := split_unique (Event.exec (.updateJobStatus "completed" m2.JobID) false)
        [.log (.processing m2.JobID m2.Choice),
         .exec (.updateJobStatus "processing" m2.JobID) true,
         .sleep 500,
         .exec (.upsertVote m2.Choice) true]
        [.log .completeJobError, .nack msg.DeliveryTag false true] pre post h (by simp) (by simp)
      obtain ⟨rfl, rfl⟩ := hs
      refine ⟨by simp [Event.isResponse], by simp, ?_, rfl⟩
      intro e he
      simp at he
      rcases he with rfl | rfl <;> rfl
    · rw [handle_all_succeed msg f db m2 hdec2 hf1 hf2 hf3] at hmem
      simp at hmem
  · intro h1
    rw [handle_processing_fails msg f db m hdec h1]
    simp
  · intro h1 h2
    rw [handle_tally_fails msg f db m hdec h1 h2]
    simp
  · intro h1 h2 h3
    rw [handle_completed_fails msg f db m hdec h1 h2 h3]
    simp

/-- C3, at the body `{"job_id":"j1","choice":"yes"}` with a store that
fails the upsert: the delivery is nacked with requeue, `j1` is left at
`processing` and no vote is counted. -/
theorem C3_failed_statement_requeues_witness :
    jsonUnmarshal "\x7b\"job_id\":\"j1\",\"choice\":\"yes\"\x7d" Message.zero
        = ({ JobID := "j1", Choice := "yes" }, none) ∧
      Event.exec (.upsertVote "yes") false ∈
        (handle ⟨"\x7b\"job_id\":\"j1\",\"choice\":\"yes\"\x7d", 7⟩ ⟨false, true, false⟩
          ⟨[⟨"j1", "queued"⟩], []⟩).2 ∧
      (handle ⟨"\x7b\"job_id\":\"j1\",\"choice\":\"yes\"\x7d", 7⟩ ⟨false, true, false⟩
          ⟨[⟨"j1", "queued"⟩], []⟩).1 = ⟨[⟨"j1", "processing"⟩], []⟩ ∧
      ([Event.log .updateVotesError, .nack 7 false true].filter Event.isResponse
        = [.nack 7 false true]) :=
  have h := C3_failed_statement_requeues
    ⟨"\x7b\"job_id\":\"j1\",\"choice\":\"yes\"\x7d", 7⟩ ⟨false, true, false⟩
    ⟨[⟨"j1", "queued"⟩], []⟩ { JobID := "j1", Choice := "yes" } (by decide)
  have h2 := h.1 [.log (.processing "j1" "yes"), .exec (.updateJobStatus "processing" "j1") true,
    .sleep 500] [.log .updateVotesError, .nack 7 false true] (.upsertVote "yes") (by decide)
  ⟨by decide, h.2.2.1 rfl rfl, h2.2.2.2.trans (by decide), h2.1⟩

/-- C4. A delivery whose body fails to decode is answered with one broker
response, `Nack(false, false)`: it is not acked and not requeued; no
statement is sent and the store is as before. -/
theorem C4_decode_failure_rejected (msg : Delivery) (f : StoreFaults) (db : Store)
    (h : (jsonUnmarshal msg.Body Message.zero).2 ≠ none) :
    (handle msg f db).2.filter Event.isResponse = [.nack msg.DeliveryTag false false] ∧
      (∀ tag multiple, Event.ack tag multiple ∉ (handle msg f db).2) ∧
      (∀ tag multiple, Event.nack tag multiple true ∉ (handle msg f db).2) ∧
      (∀ e ∈ (handle msg f db).2, e.isExec = false) ∧
      (handle msg f db).1 = db := by
  rw [handle_decode_error msg f db h]
  refine ⟨by simp [Event.isResponse], by simp, by simp, ?_, rfl⟩
  intro e he
  simp at he
  rcases he with rfl | rfl <;> rfl

/-- C4, at the body `not-json-bytes`: decoding fails with a syntax error,
the delivery is nacked without requeue and the tables are unchanged. -/
theorem C4_decode_failure_rejected_witness :
    (jsonUnmarshal "not-json-bytes" Message.zero).2 = some JSONError.SyntaxError ∧
      (handle ⟨"not-json-bytes", 3⟩ StoreFaults.healthy ⟨[⟨"j1", "queued"⟩], [⟨"yes", 1⟩]⟩).2.filter
          Event.isResponse = [.nack 3 false false] ∧
      (handle ⟨"not-json-bytes", 3⟩ StoreFaults.healthy ⟨[⟨"j1", "queued"⟩], [⟨"yes", 1⟩]⟩).1
        = ⟨[⟨"j1", "queued"⟩], [⟨"yes", 1⟩]⟩ :=
  have h := C4_decode_failure_rejected ⟨"not-json-bytes", 3⟩ StoreFaults.healthy
    ⟨[⟨"j1", "queued"⟩], [⟨"yes", 1⟩]⟩ (by decide)
  ⟨by decide, h.1, h.2.2.2.2⟩

/-! ## Lemmas on decoding -/

theorem storeString_error (v : JValue) (cur : String) :
    (storeString v cur).2 = if v.isStringOrNull then none else some JSONError.UnmarshalTypeError := by
  cases v <;> rfl

theorem decodeObject_error (ms : List (String × JValue)) (m : Message)
    (saved : Option JSONError) :
    (decodeObject ms m saved).2 =
      saveError saved
        (if ms.any (fun kv => (fieldByName kv.1).isSome && !kv.2.isStringOrNull)
          then some JSONError.UnmarshalTypeError else none) := by
  induction ms generalizing m saved with
  | nil => cases saved <;> rfl
  | cons kv rest ih =>
    obtain ⟨key, v⟩ := kv
    unfold decodeObject
    cases hf : fieldByName key with
    | none =>
      simp only [List.any_cons, hf, Option.isSome_none, Bool.false_and, Bool.false_or]
      exact ih m saved
    | some fld =>
      cases fld with
      | JobID =>
        simp only [List.any_cons, hf, Option.isSome_some, Bool.true_and]
        rw [ih, storeString_error]
        cases saved <;> cases v.isStringOrNull <;>
          cases (rest.any fun kv => (fieldByName kv.1).isSome && !kv.2.isStringOrNull) <;> rfl
      | Choice =>
        simp only [List.any_cons, hf, Option.isSome_some, Bool.true_and]
        rw [ih, storeString_error]
        cases saved <;> cases v.isStringOrNull <;>
          cases (rest.any fun kv => (fieldByName kv.1).isSome && !kv.2.isStringOrNull) <;> rfl

theorem decodeValue_error (v : JValue) (m : Message) :
    (decodeValue v m).2 = if typeMismatch v then some JSONError.UnmarshalTypeError else none := by
  cases v with
  | object ms =>
    unfold decodeValue typeMismatch
    rw [decodeObject_error]
    rfl
  | _ => rfl

theorem decodeObject_JobID_absent (ms : List (String × JValue)) (m : Message)
    (saved : Option JSONError) (h : ∀ kv ∈ ms, fieldByName kv.1 ≠ some Field.JobID) :
    (decodeObject ms m saved).1.JobID = m.JobID := by
  induction ms generalizing m saved with
  | nil => rfl
  | cons kv rest ih =>
    obtain ⟨key, v⟩ := kv
    have hk : fieldByName key ≠ some Field.JobID := h (key, v) (List.mem_cons_self _ _)
    have hrest : ∀ kv ∈ rest, fieldByName kv.1 ≠ some Field.JobID :=
      fun kv hkv => h kv (List.mem_cons_of_mem _ hkv)
    unfold decodeObject
    cases hf : fieldByName key with
    | none => exact ih m saved hrest
    | some fld =>
      cases fld with
      | JobID => exact absurd hf hk
      | Choice => exact ih _ _ hrest

theorem decodeObject_Choice_absent (ms : List (String × JValue)) (m : Message)
    (saved : Option JSONError) (h : ∀ kv ∈ ms, fieldByName kv.1 ≠ some Field.Choice) :
    (decodeObject ms m saved).1.Choice = m.Choice := by
  induction ms generalizing m saved with
  | nil => rfl
  | cons kv rest ih =>
    obtain ⟨key, v⟩ := kv
    have hk : fieldByName key ≠ some Field.Choice := h (key, v) (List.mem_cons_self _ _)
    have hrest : ∀ kv ∈ rest, fieldByName kv.1 ≠ some Field.Choice :=
      fun kv hkv => h kv (List.mem_cons_of_mem _ hkv)
    unfold decodeObject
    cases hf : fieldByName key with
    | none => exact ih m saved hrest
    | some fld =>
      cases fld with
      | JobID => exact ih _ _ hrest
      | Choice => exact absurd hf hk

theorem jsonUnmarshal_error_iff (data : String) (m : Message) :
    (jsonUnmarshal data m).2 ≠ none ↔
      (checkValid data.toList = none ∨
        ∃ v, checkValid data.toList = some v ∧ typeMismatch v = true) := by
  unfold jsonUnmarshal
  cases hv : checkValid data.toList with
  | none => simp
  | some v =>
    simp only [decodeValue_error]
    cases ht : typeMismatch v <;> simp [ht]

/-- C5, refuted as stated: the body `{"job_id":"j1"}` is a JSON object with
no member `choice` (its one member is `job_id`), yet it decodes without
error to a message with an empty choice, is handled as a well-formed
message and acked, and a `votes` row of the empty choice is created. -/
theorem C5_counterexample_missing_field :
    (∃ v, checkValid "\x7b\"job_id\":\"j1\"\x7d".toList = some (.object [("job_id", v)])) ∧
      jsonUnmarshal "\x7b\"job_id\":\"j1\"\x7d" Message.zero
        = ({ JobID := "j1", Choice := "" }, none) ∧
      handle ⟨"\x7b\"job_id\":\"j1\"\x7d", 1⟩ StoreFaults.healthy ⟨[⟨"j1", "queued"⟩], []⟩
        = (⟨[⟨"j1", "completed"⟩], [⟨"", 1⟩]⟩,
           [.log (.processing "j1" ""),
            .exec (.updateJobStatus "processing" "j1") true,
            .sleep 500,
            .exec (.upsertVote "") true,
            .exec (.updateJobStatus "completed" "j1") true,
            .ack 1 false,
            .log (.completed "j1")]) :=
  ⟨⟨.str "j1", rfl⟩, by decide, by decide⟩

/-- C5, amended. Decoding fails exactly when the body is not JSON or is a
JSON value that does not fit `Message` (neither an object nor `null`, or an
object with a member naming `job_id` or `choice` that holds a number, a
boolean, an array or an object); such a delivery is nacked without requeue,
no statement is sent and the store is as before. An object whose members
naming a field all hold a string or `null` decodes without error, and a
field that no member names is left empty. -/
theorem C5_decode_failure_cases (msg : Delivery) (f : StoreFaults) (db : Store) :
    ((jsonUnmarshal msg.Body Message.zero).2 ≠ none ↔
      (checkValid msg.Body.toList = none ∨
        ∃ v, checkValid msg.Body.toList = some v ∧ typeMismatch v = true)) ∧
    ((checkValid msg.Body.toList = none ∨
        ∃ v, checkValid msg.Body.toList = some v ∧ typeMismatch v = true) →
      (handle msg f db).2.filter Event.isResponse = [.nack msg.DeliveryTag false false] ∧
      (∀ e ∈ (handle msg f db).2, e.isExec = false) ∧
      (handle msg f db).1 = db) ∧
    (∀ ms, checkValid msg.Body.toList = some (.object ms) →
      typeMismatch (.object ms) = false →
        (jsonUnmarshal msg.Body Message.zero).2 = none ∧
        ((∀ kv ∈ ms, fieldByName kv.1 ≠ some Field.JobID) →
          (jsonUnmarshal msg.Body Message.zero).1.JobID = "") ∧
        ((∀ kv ∈ ms, fieldByName kv.1 ≠ some Field.Choice) →
          (jsonUnmarshal msg.Body Message.zero).1.Choice = "")) := by
  refine ⟨jsonUnmarshal_error_iff _ _, ?_, ?_⟩
  · intro h
    have herr := (jsonUnmarshal_error_iff msg.Body Message.zero).2 h
    rw [handle_decode_error msg f db herr]
    refine ⟨by simp [Event.isResponse], ?_, rfl⟩
    intro e he
    simp at he
    rcases he with rfl | rfl <;> rfl
  · intro ms hv hm
    have hj : jsonUnmarshal msg.Body Message.zero = decodeObject ms Message.zero none := by
      unfold jsonUnmarshal
      rw [hv]
      rfl
    refine ⟨?_, ?_, ?_⟩
    · have := decodeValue_error (.object ms) Message.zero
      rw [hm] at this
      rw [hj]
      exact this
    · intro h
      rw [hj]
      exact decodeObject_JobID_absent ms Message.zero none h
    · intro h
      rw [hj]
      exact decodeObject_Choice_absent ms Message.zero none h

/-- C5, amended, at the body `{"job_id":1,"choice":"yes"}`: the number
under `job_id` is a type mismatch, decoding fails, the delivery is nacked
without requeue and the store is as before. -/
theorem C5_decode_failure_cases_witness :
    (jsonUnmarshal "\x7b\"job_id\":1,\"choice\":\"yes\"\x7d" Message.zero).2
        = some JSONError.UnmarshalTypeError ∧
      (handle ⟨"\x7b\"job_id\":1,\"choice\":\"yes\"\x7d", 4⟩ StoreFaults.healthy
        ⟨[⟨"1", "queued"⟩], []⟩).2.filter Event.isResponse = [.nack 4 false false] ∧
      (handle ⟨"\x7b\"job_id\":1,\"choice\":\"yes\"\x7d", 4⟩ StoreFaults.healthy
        ⟨[⟨"1", "queued"⟩], []⟩).1 = ⟨[⟨"1", "queued"⟩], []⟩ :=
  have h := (C5_decode_failure_cases ⟨"\x7b\"job_id\":1,\"choice\":\"yes\"\x7d", 4⟩
    StoreFaults.healthy ⟨[⟨"1", "queued"⟩], []⟩).2.1
    (Or.inr ⟨.object [("job_id", .number ['1']), ("choice", .str "yes")], rfl, by decide⟩)
  ⟨by decide, h.1, h.2.2⟩

/-- C6. A tally statement that succeeds leaves the choice it names with
count 1 when the choice had no row and with its old count plus 1 otherwise;
the count and the rows of every other choice, and the jobs table, are as
before. -/
theorem C6_tally_upsert (fails : Bool) (c : String) (db db2 : Store)
    (h : dbExec fails (.upsertVote c) db = (db2, none)) :
    countOf db2.votes c
        = some (match countOf db.votes c with
                | none => 1
                | some n => n + 1) ∧
      (∀ c2, c2 ≠ c →
        countOf db2.votes c2 = countOf db.votes c2 ∧
        db2.votes.filter (fun r => decide (r.choice = c2))
          = db.votes.filter (fun r => decide (r.choice = c2))) ∧
      db2.jobs = db.jobs := by
  unfold dbExec at h
  cases fails with
  | true => simp at h
  | false =>
    simp only [Bool.false_eq_true, if_false, Prod.mk.injEq, and_true] at h
    subst h
    simp only [Stmt.apply]
    refine ⟨?_, ?_, trivial⟩
    · rw [countOf_upsertVotes_self]
      cases countOf db.votes c <;> simp
    · intro c2 hne
      exact ⟨countOf_upsertVotes_other _ _ _ hne, filter_upsertVotes_other _ _ _ hne⟩

/-- C6, at the second `yes` vote: after `{"job_id":"j1","choice":"yes"}` the
store holds `yes` with count 1, the tally statement of
`{"job_id":"j2","choice":"yes"}` makes it 2, and handling both deliveries
from empty tables leaves `yes` at 2. -/
theorem C6_tally_upsert_witness :
    (handle ⟨"\x7b\"job_id\":\"j1\",\"choice\":\"yes\"\x7d", 1⟩ StoreFaults.healthy
        ⟨[⟨"j1", "queued"⟩, ⟨"j2", "queued"⟩], []⟩).1
      = ⟨[⟨"j1", "completed"⟩, ⟨"j2", "queued"⟩], [⟨"yes", 1⟩]⟩ ∧
    dbExec false (.upsertVote "yes") ⟨[⟨"j1", "completed"⟩, ⟨"j2", "queued"⟩], [⟨"yes", 1⟩]⟩
      = (⟨[⟨"j1", "completed"⟩, ⟨"j2", "queued"⟩], [⟨"yes", 2⟩]⟩, none) ∧
    countOf [(⟨"yes", 2⟩ : VoteRow)] "yes" = some 2 ∧
    countOf (consume
        [(⟨"\x7b\"job_id\":\"j1\",\"choice\":\"yes\"\x7d", 1⟩, StoreFaults.healthy),
         (⟨"\x7b\"job_id\":\"j2\",\"choice\":\"yes\"\x7d", 2⟩, StoreFaults.healthy)]
        ⟨[⟨"j1", "queued"⟩, ⟨"j2", "queued"⟩], []⟩).1.votes "yes" = some 2 :=
  ⟨by decide, by decide,
   (C6_tally_upsert false "yes" ⟨[⟨"j1", "completed"⟩, ⟨"j2", "queued"⟩], [⟨"yes", 1⟩]⟩
      ⟨[⟨"j1", "completed"⟩, ⟨"j2", "queued"⟩], [⟨"yes", 2⟩]⟩ (by decide)).1.trans (by decide),
   by decide⟩

/-! ## Lemmas on the jobs table through a delivery -/

theorem forall₂_map_of_forall {α : Type} (P : α → α → Prop) (g : α → α) (l : List α)
    (h : ∀ r ∈ l, P r (g r)) : List.Forall₂ P l (l.map g) := by
  induction l with
  | nil => exact List.Forall₂.nil
  | cons x rest ih =>
    exact List.Forall₂.cons (h x (List.mem_cons_self _ _))
      (ih fun r hr => h r (List.mem_cons_of_mem _ hr))

theorem forall₂_self_of_forall {α : Type} (P : α → α → Prop) (l : List α)
    (h : ∀ r ∈ l, P r r) : List.Forall₂ P l l := by
  have := forall₂_map_of_forall P id l h
  rwa [List.map_id] at this

theorem status_of_mem_updateJobs (st id : String) (jobs : List JobRow) (r : JobRow)
    (hr : r ∈ updateJobs st id jobs) (hid : r.id = id) : r.status = st := by
  unfold updateJobs at hr
  rw [List.mem_map] at hr
  obtain ⟨r0, _, hr0⟩ := hr
  by_cases h : r0.id = id
  · rw [if_pos h] at hr0
    rw [← hr0]
  · rw [if_neg h] at hr0
    rw [← hr0] at hid
    exact absurd hid h

/-- The jobs table after a delivery whose body decoded to `m`. -/
theorem handle_jobs_decoded (msg : Delivery) (f : StoreFaults) (db : Store) (m : Message)
    (hdec : jsonUnmarshal msg.Body Message.zero = (m, none)) :
    (handle msg f db).1.jobs =
      if f.processing then db.jobs
      else if f.tally || f.completed then updateJobs "processing" m.JobID db.jobs
      else updateJobs "completed" m.JobID db.jobs := by
  cases h1 : f.processing with
  | true => rw [handle_processing_fails msg f db m hdec h1]; rfl
  | false =>
    cases h2 : f.tally with
    | true => rw [handle_tally_fails msg f db m hdec h1 h2]; rfl
    | false =>
      cases h3 : f.completed with
      | true => rw [handle_completed_fails msg f db m hdec h1 h2 h3]; rfl
      | false =>
        rw [handle_all_succeed msg f db m hdec h1 h2 h3]
        simp only [Stmt.apply]
        rw [updateJobs_updateJobs]
        rfl

/-- The votes table after a delivery whose body decoded to `m`. -/
theorem handle_votes_decoded (msg : Delivery) (f : StoreFaults) (db : Store) (m : Message)
    (hdec : jsonUnmarshal msg.Body Message.zero = (m, none)) :
    (handle msg f db).1.votes =
      if f.processing || f.tally then db.votes else upsertVotes m.Choice db.votes := by
  cases h1 : f.processing with
  | true => rw [handle_processing_fails msg f db m hdec h1]; rfl
  | false =>
    cases h2 : f.tally with
    | true => rw [handle_tally_fails msg f db m hdec h1 h2]; rfl
    | false =>
      cases h3 : f.completed with
      | true => rw [handle_completed_fails msg f db m hdec h1 h2 h3]; rfl
      | false => rw [handle_all_succeed msg f db m hdec h1 h2 h3]; rfl

/-- C7, refuted as stated: job `j1` is `completed`; its message is delivered
again, the first statement succeeds and the upsert fails; the delivery is
nacked and `j1` is left at `processing`. -/
theorem C7_counterexample_completed_regresses :
    statusOf (Store.jobs ⟨[⟨"j1", "completed"⟩], [⟨"yes", 1⟩]⟩) "j1" = some "completed" ∧
      handle ⟨"\x7b\"job_id\":\"j1\",\"choice\":\"yes\"\x7d", 2⟩ ⟨false, true, false⟩
          ⟨[⟨"j1", "completed"⟩], [⟨"yes", 1⟩]⟩
        = (⟨[⟨"j1", "processing"⟩], [⟨"yes", 1⟩]⟩,
           [.log (.processing "j1" "yes"),
            .exec (.updateJobStatus "processing" "j1") true,
            .sleep 500,
            .exec (.upsertVote "yes") false,
            .log .updateVotesError,
            .nack 2 false true]) ∧
      statusOf (handle ⟨"\x7b\"job_id\":\"j1\",\"choice\":\"yes\"\x7d", 2⟩ ⟨false, true, false⟩
          ⟨[⟨"j1", "completed"⟩], [⟨"yes", 1⟩]⟩).1.jobs "j1" = some "processing" :=
  ⟨by decide, by decide, by decide⟩

/-- C7, amended. Handling a decoded message rewrites the status of the rows
of its job id whatever the status was: row by row, the id is kept, a row of
another id is unchanged, and a row of that id keeps its status when the
first statement fails, is `processing` when the first statement succeeds
and a later one fails, and is `completed` when all three succeed. -/
theorem C7_status_rewritten (msg : Delivery) (f : StoreFaults) (db : Store) (m : Message)
    (hdec : jsonUnmarshal msg.Body Message.zero = (m, none)) :
    List.Forall₂
      (fun r r2 => r2.id = r.id ∧ (r.id ≠ m.JobID → r2 = r) ∧
        (r.id = m.JobID → r2.status =
          if f.processing then r.status
          else if f.tally || f.completed then "processing" else "completed"))
      db.jobs (handle msg f db).1.jobs := by
  rw [handle_jobs_decoded msg f db m hdec]
  cases h1 : f.processing with
  | true =>
    simp only [if_true]
    exact forall₂_self_of_forall _ _ fun r _ => ⟨rfl, fun _ => rfl, fun _ => rfl⟩
  | false =>
    simp only [Bool.false_eq_true, if_false]
    cases h23 : (f.tally || f.completed) with
    | true =>
      simp only [if_true]
      unfold updateJobs
      apply forall₂_map_of_forall
      intro r _
      by_cases h : r.id = m.JobID
      · simp [h]
      · simp [h]
    | false =>
      simp only [Bool.false_eq_true, if_false]
      unfold updateJobs
      apply forall₂_map_of_forall
      intro r _
      by_cases h : r.id = m.JobID
      · simp [h]
      · simp [h]

/-- C7, amended, at a fresh job: `j1` is `queued`, its message is handled by
a healthy store, and the row of `j1` ends `completed`. -/
theorem C7_status_rewritten_witness :
    jsonUnmarshal "\x7b\"job_id\":\"j1\",\"choice\":\"yes\"\x7d" Message.zero
        = ({ JobID := "j1", Choice := "yes" }, none) ∧
      List.Forall₂
        (fun r r2 => r2.id = r.id ∧ (r.id ≠ "j1" → r2 = r) ∧
          (r.id = "j1" → r2.status =
            if StoreFaults.healthy.processing then r.status
            else if StoreFaults.healthy.tally || StoreFaults.healthy.completed
              then "processing" else "completed"))
        [⟨"j1", "queued"⟩]
        (handle ⟨"\x7b\"job_id\":\"j1\",\"choice\":\"yes\"\x7d", 1⟩ StoreFaults.healthy
          ⟨[⟨"j1", "queued"⟩], []⟩).1.jobs :=
  ⟨by decide,
   C7_status_rewritten ⟨"\x7b\"job_id\":\"j1\",\"choice\":\"yes\"\x7d", 1⟩ StoreFaults.healthy
     ⟨[⟨"j1", "queued"⟩], []⟩ { JobID := "j1", Choice := "yes" } (by decide)⟩

/-- The jobs table after any delivery: as before, or as before with the
status of the decoded job id rewritten. -/
theorem handle_jobs_cases (msg : Delivery) (f : StoreFaults) (db : Store) :
    (handle msg f db).1.jobs = db.jobs ∨
      ∃ st, (handle msg f db).1.jobs
        = updateJobs st (jsonUnmarshal msg.Body Message.zero).1.JobID db.jobs := by
  rcases hj : jsonUnmarshal msg.Body Message.zero with ⟨m, e⟩
  cases e with
  | some e =>
    left
    rw [handle_decode_error msg f db (by rw [hj]; simp)]
  | none =>
    rw [handle_jobs_decoded msg f db m hj]
    cases f.processing with
    | true => left; rfl
    | false =>
      right
      cases (f.tally || f.completed) with
      | true => exact ⟨"processing", rfl⟩
      | false => exact ⟨"completed", rfl⟩

/-- C8. Handling a delivery creates and deletes no job: the ids of the jobs
table are the same, in the same order, and row by row a row whose id is not
the decoded job id is unchanged. When the job id has no row, a status update
that the store does not fail returns no error and leaves the store as it
is, the jobs table after the delivery is the one before, and with a healthy
store the three statements are sent and succeed, the vote is counted and the
delivery is acked. -/
theorem C8_jobs_never_created_or_deleted (msg : Delivery) (f : StoreFaults) (db : Store) :
    (handle msg f db).1.jobs.map (·.id) = db.jobs.map (·.id) ∧
    List.Forall₂
      (fun r r2 => r2.id = r.id ∧
        (r.id ≠ (jsonUnmarshal msg.Body Message.zero).1.JobID → r2 = r))
      db.jobs (handle msg f db).1.jobs ∧
    (∀ m, jsonUnmarshal msg.Body Message.zero = (m, none) →
      (∀ r ∈ db.jobs, r.id ≠ m.JobID) →
        (∀ st, dbExec false (.updateJobStatus st m.JobID) db = (db, none)) ∧
        (handle msg f db).1.jobs = db.jobs ∧
        (f.processing = false → f.tally = false → f.completed = false →
          (handle msg f db).2.filter Event.isExec
            = [.exec (.updateJobStatus "processing" m.JobID) true,
               .exec (.upsertVote m.Choice) true,
               .exec (.updateJobStatus "completed" m.JobID) true] ∧
          (handle msg f db).2.filter Event.isResponse = [.ack msg.DeliveryTag false] ∧
          (handle msg f db).1.votes = upsertVotes m.Choice db.votes)) := by
  refine ⟨?_, ?_, ?_⟩
  · rcases handle_jobs_cases msg f db with h | ⟨st, h⟩
    · rw [h]
    · rw [h, updateJobs_ids]
  · rcases handle_jobs_cases msg f db with h | ⟨st, h⟩
    · rw [h]
      exact forall₂_self_of_forall _ _ fun r _ => ⟨rfl, fun _ => rfl⟩
    · rw [h]
      unfold updateJobs
      apply forall₂_map_of_forall
      intro r _
      by_cases hid : r.id = (jsonUnmarshal msg.Body Message.zero).1.JobID
      · simp [hid]
      · simp [hid]
  · intro m hdec habsent
    refine ⟨?_, ?_, ?_⟩
    · intro st
      unfold dbExec
      simp only [Bool.false_eq_true, if_false, Stmt.apply]
      rw [updateJobs_of_absent st m.JobID db.jobs habsent]
    · rw [handle_jobs_decoded msg f db m hdec]
      rw [updateJobs_of_absent _ m.JobID db.jobs habsent,
        updateJobs_of_absent _ m.JobID db.jobs habsent]
      simp
    · intro h1 h2 h3
      rw [handle_all_succeed msg f db m hdec h1 h2 h3]
      refine ⟨by simp [Event.isExec], by simp [Event.isResponse], rfl⟩

/-- C8, at a message for a job `j9` that has no row: the jobs table is
unchanged, the vote is counted and the delivery is acked. -/
theorem C8_jobs_never_created_or_deleted_witness :
    jsonUnmarshal "\x7b\"job_id\":\"j9\",\"choice\":\"no\"\x7d" Message.zero
        = ({ JobID := "j9", Choice := "no" }, none) ∧
      (handle ⟨"\x7b\"job_id\":\"j9\",\"choice\":\"no\"\x7d", 5⟩ StoreFaults.healthy
        ⟨[⟨"j1", "queued"⟩], []⟩).1.jobs = [⟨"j1", "queued"⟩] ∧
      (handle ⟨"\x7b\"job_id\":\"j9\",\"choice\":\"no\"\x7d", 5⟩ StoreFaults.healthy
        ⟨[⟨"j1", "queued"⟩], []⟩).2.filter Event.isResponse = [.ack 5 false] ∧
      (handle ⟨"\x7b\"job_id\":\"j9\",\"choice\":\"no\"\x7d", 5⟩ StoreFaults.healthy
        ⟨[⟨"j1", "queued"⟩], []⟩).1.votes = [⟨"no", 1⟩] :=
  have h := (C8_jobs_never_created_or_deleted
    ⟨"\x7b\"job_id\":\"j9\",\"choice\":\"no\"\x7d", 5⟩ StoreFaults.healthy
    ⟨[⟨"j1", "queued"⟩], []⟩).2.2 { JobID := "j9", Choice := "no" } (by decide) (by decide)
  ⟨by decide, h.2.1, (h.2.2 rfl rfl rfl).2.1, (h.2.2 rfl rfl rfl).2.2.trans (by decide)⟩

/-- C9. A message handled once up to a successful tally statement (whether
its last statement then fails or succeeds) and delivered again with all
three statements succeeding: the count of its choice is 1 higher after the
first delivery and 2 higher after the second than before the first, and the
job ends `completed`. -/
theorem C9_redelivery_counts_twice (msg msg2 : Delivery) (f1 f2 : StoreFaults) (db : Store)
    (m : Message) (hdec : jsonUnmarshal msg.Body Message.zero = (m, none))
    (hre : msg2.Body = msg.Body)
    (h1 : f1.processing = false) (h2 : f1.tally = false)
    (g1 : f2.processing = false) (g2 : f2.tally = false) (g3 : f2.completed = false) :
    countOf (handle msg f1 db).1.votes m.Choice
        = some ((countOf db.votes m.Choice).getD 0 + 1) ∧
      countOf (consume [(msg, f1), (msg2, f2)] db).1.votes m.Choice
        = some ((countOf db.votes m.Choice).getD 0 + 2) ∧
      statusOf (consume [(msg, f1), (msg2, f2)] db).1.jobs m.JobID
        = (statusOf db.jobs m.JobID).map (fun _ => "completed") ∧
      (∀ r ∈ (consume [(msg, f1), (msg2, f2)] db).1.jobs,
        r.id = m.JobID → r.status = "completed") ∧
      (handle msg2 f2 (handle msg f1 db).1).2.filter Event.isResponse
        = [.ack msg2.DeliveryTag false] := by
  have hdec2 : jsonUnmarshal msg2.Body Message.zero = (m, none) := by rw [hre]; exact hdec
  have hv1 : (handle msg f1 db).1.votes = upsertVotes m.Choice db.votes := by
    rw [handle_votes_decoded msg f1 db m hdec, h1, h2]
    rfl
  have hc : consume [(msg, f1), (msg2, f2)] db
      = ((handle msg2 f2 (handle msg f1 db).1).1,
         (handle msg f1 db).2 ++ ((handle msg2 f2 (handle msg f1 db).1).2 ++ [])) := rfl
  have hv2 : (handle msg2 f2 (handle msg f1 db).1).1.votes
      = upsertVotes m.Choice (upsertVotes m.Choice db.votes) := by
    rw [handle_votes_decoded msg2 f2 _ m hdec2, g1, g2, hv1]
    rfl
  have hj2 : (handle msg2 f2 (handle msg f1 db).1).1.jobs
      = updateJobs "completed" m.JobID db.jobs := by
    rw [handle_jobs_decoded msg2 f2 _ m hdec2, g1, g2, g3,
      handle_jobs_decoded msg f1 db m hdec, h1]
    simp only [Bool.false_eq_true, if_false, Bool.or_self]
    cases (f1.tally || f1.completed) with
    | true => simp only [if_true]; rw [updateJobs_updateJobs]
    | false => simp only [Bool.false_eq_true, if_false]; rw [updateJobs_updateJobs]
  refine ⟨?_, ?_, ?_, ?_, ?_⟩
  · rw [hv1, countOf_upsertVotes_self]
  · rw [hc]
    simp only []
    rw [hv2, countOf_upsertVotes_self, countOf_upsertVotes_self]
    simp only [Option.getD_some]
    congr 1
    ring
  · rw [hc]
    simp only []
    rw [hj2, statusOf_updateJobs_self]
  · rw [hc]
    simp only []
    rw [hj2]
    intro r hr hid
    exact status_of_mem_updateJobs _ _ _ r hr hid
  · rw [handle_all_succeed msg2 f2 _ m hdec2 g1 g2 g3]
    simp [Event.isResponse]

/-- C9, at `{"job_id":"j1","choice":"yes"}` with one earlier `yes` vote: the
first delivery counts the vote and fails at the last statement, the
redelivery counts it again, `yes` ends at 3 and `j1` at `completed`. -/
theorem C9_redelivery_counts_twice_witness :
    jsonUnmarshal "\x7b\"job_id\":\"j1\",\"choice\":\"yes\"\x7d" Message.zero
        = ({ JobID := "j1", Choice := "yes" }, none) ∧
      countOf (consume
          [(⟨"\x7b\"job_id\":\"j1\",\"choice\":\"yes\"\x7d", 1⟩, ⟨false, false, true⟩),
           (⟨"\x7b\"job_id\":\"j1\",\"choice\":\"yes\"\x7d", 2⟩, StoreFaults.healthy)]
          ⟨[⟨"j1", "queued"⟩], [⟨"yes", 1⟩]⟩).1.votes "yes" = some 3 ∧
      statusOf (consume
          [(⟨"\x7b\"job_id\":\"j1\",\"choice\":\"yes\"\x7d", 1⟩, ⟨false, false, true⟩),
           (⟨"\x7b\"job_id\":\"j1\",\"choice\":\"yes\"\x7d", 2⟩, StoreFaults.healthy)]
          ⟨[⟨"j1", "queued"⟩], [⟨"yes", 1⟩]⟩).1.jobs "j1" = some "completed" :=
  have h := C9_redelivery_counts_twice
    ⟨"\x7b\"job_id\":\"j1\",\"choice\":\"yes\"\x7d", 1⟩
    ⟨"\x7b\"job_id\":\"j1\",\"choice\":\"yes\"\x7d", 2⟩
    ⟨false, false, true⟩ StoreFaults.healthy ⟨[⟨"j1", "queued"⟩], [⟨"yes", 1⟩]⟩
    { JobID := "j1", Choice := "yes" } (by decide) rfl rfl rfl rfl rfl rfl
  ⟨by decide, h.2.1.trans (by decide), h.2.2.1.trans (by decide)⟩

/-! ## The loop over the deliveries -/

theorem consume_append (ds1 ds2 : List (Delivery × StoreFaults)) (db : Store) :
    consume (ds1 ++ ds2) db
      = ((consume ds2 (consume ds1 db).1).1,
         (consume ds1 db).2 ++ (consume ds2 (consume ds1 db).1).2) := by
  induction ds1 generalizing db with
  | nil => rfl
  | cons d rest ih =>
    obtain ⟨msg, f⟩ := d
    rw [List.cons_append]
    show ((consume (rest ++ ds2) (handle msg f db).1).1,
        (handle msg f db).2 ++ (consume (rest ++ ds2) (handle msg f db).1).2) = _
    rw [ih]
    simp only [consume, List.append_assoc]

/-- One delivery gets one broker response, for its own tag. -/
theorem handle_one_response (msg : Delivery) (f : StoreFaults) (db : Store) :
    (handle msg f db).2.filter Event.isResponse = [.ack msg.DeliveryTag false] ∨
    (handle msg f db).2.filter Event.isResponse = [.nack msg.DeliveryTag false true] ∨
    (handle msg f db).2.filter Event.isResponse = [.nack msg.DeliveryTag false false] := by
  rcases handle_cases msg f with herr | ⟨m, hdec, hf | ⟨hf1, hf2⟩ | ⟨hf1, hf2, hf3⟩ | ⟨hf1, hf2, hf3⟩⟩
  · rw [handle_decode_error msg f db herr]
    right; right
    simp [Event.isResponse]
  · rw [handle_processing_fails msg f db m hdec hf]
    right; left
    simp [Event.isResponse]
  · rw [handle_tally_fails msg f db m hdec hf1 hf2]
    right; left
    simp [Event.isResponse]
  · rw [handle_completed_fails msg f db m hdec hf1 hf2 hf3]
    right; left
    simp [Event.isResponse]
  · rw [handle_all_succeed msg f db m hdec hf1 hf2 hf3]
    left
    simp [Event.isResponse]

theorem handle_response_tags (msg : Delivery) (f : StoreFaults) (db : Store) :
    ((handle msg f db).2.filter Event.isResponse).map Event.tag? = [some msg.DeliveryTag] := by
  rcases handle_one_response msg f db with h | h | h <;> rw [h] <;> rfl

/-- C10. Whatever the bodies and the faults of the store: the trace of the
loop over a sequence of deliveries is the trace of the deliveries before
any one of them, then the trace of that delivery handled on the store they
left, then the trace of the deliveries after it; the trace of each delivery
holds one broker response (`Ack(false)`, `Nack(false, true)` or
`Nack(false, false)`) for its own tag; and the responses of the whole loop
are one per delivery, in delivery order. -/
theorem C10_errors_contained (ds : List (Delivery × StoreFaults)) (db : Store) :
    (∀ (ds1 ds2 : List (Delivery × StoreFaults)) (d : Delivery × StoreFaults),
      ds = ds1 ++ d :: ds2 →
        (consume ds db).2
          = (consume ds1 db).2 ++ (handle d.1 d.2 (consume ds1 db).1).2
              ++ (consume ds2 (handle d.1 d.2 (consume ds1 db).1).1).2 ∧
        ((handle d.1 d.2 (consume ds1 db).1).2.filter Event.isResponse
            = [.ack d.1.DeliveryTag false] ∨
         (handle d.1 d.2 (consume ds1 db).1).2.filter Event.isResponse
            = [.nack d.1.DeliveryTag false true] ∨
         (handle d.1 d.2 (consume ds1 db).1).2.filter Event.isResponse
            = [.nack d.1.DeliveryTag false false])) ∧
    ((consume ds db).2.filter Event.isResponse).map Event.tag?
      = ds.map (fun d => some d.1.DeliveryTag) := by
  refine ⟨?_, ?_⟩
  · intro ds1 ds2 d hds
    subst hds
    refine ⟨?_, handle_one_response _ _ _⟩
    rw [consume_append]
    obtain ⟨msg, f⟩ := d
    simp only [consume, List.append_assoc]
  · induction ds generalizing db with
    | nil => rfl
    | cons d rest ih =>
      obtain ⟨msg, f⟩ := d
      simp only [consume, List.filter_append, List.map_append, List.map_cons]
      rw [handle_response_tags, ih]
      rfl

/-- C10, at three deliveries: one that fails at the upsert, one that is not
JSON, one that succeeds. Each gets its response, in order, and the third is
handled and acked after the two failures. -/
theorem C10_errors_contained_witness :
    ((consume
        [(⟨"\x7b\"job_id\":\"j1\",\"choice\":\"yes\"\x7d", 1⟩, ⟨false, true, false⟩),
         (⟨"not-json-bytes", 2⟩, StoreFaults.healthy),
         (⟨"\x7b\"job_id\":\"j2\",\"choice\":\"no\"\x7d", 3⟩, StoreFaults.healthy)]
        ⟨[⟨"j1", "queued"⟩, ⟨"j2", "queued"⟩], []⟩).2.filter Event.isResponse).map Event.tag?
      = [some 1, some 2, some 3] ∧
    (consume
        [(⟨"\x7b\"job_id\":\"j1\",\"choice\":\"yes\"\x7d", 1⟩, ⟨false, true, false⟩),
         (⟨"not-json-bytes", 2⟩, StoreFaults.healthy),
         (⟨"\x7b\"job_id\":\"j2\",\"choice\":\"no\"\x7d", 3⟩, StoreFaults.healthy)]
        ⟨[⟨"j1", "queued"⟩, ⟨"j2", "queued"⟩], []⟩).2.filter Event.isResponse
      = [.nack 1 false true, .nack 2 false false, .ack 3 false] :=
  ⟨(C10_errors_contained _ _).2, by decide⟩

end Worker
